import Mathlib

/- A shallow embedding of the squashctl debug-target resolution and
   secure-attachment orchestration logic (pkg/squashctl/app.go).

   Cluster API calls, interactive prompts and external collaborators are
   modelled by an explicit environment of responses (Env); every modelled
   function returns its result together with the ordered list of side
   effects it performed, so temporal claims become statements about the
   effect trace.  Logging (printVerbose, fmt.Println) is not modelled.
   Machine integers of the source (the local port) are modelled as Int. -/

namespace SquashCtl

/-- A container spec as listed by the cluster: name and image. -/
structure Container where
  Name : String
  Image : String
deriving DecidableEq, Repr

/-- A pod as listed by the cluster: name and container specs. -/
structure Pod where
  Name : String
  Containers : List Container
deriving DecidableEq, Repr

/-- The resolved debug target.  In the source these are pointers to the
    listed pod and container objects; none models a nil pointer. -/
structure DebugTarget where
  Pod : Option Pod := none
  Container : Option Container := none
deriving DecidableEq, Repr

/-- The fields of config.Squash that the modelled code paths read or write. -/
structure Squash where
  Namespace : String := ""
  Pod : String := ""
  Container : String := ""
  Debugger : String := ""
  LocalPort : Int := 0
  Machine : Bool := false
  ChooseDebugger : Bool := false
  ChoosePod : Bool := false
deriving DecidableEq, Repr

/-- The slice of the Options tree read by the modelled code paths:
    the squash config, the secure-mode flag and the debug target. -/
structure Options where
  Squash : Squash
  secureMode : Bool := false
  DebugTarget : DebugTarget := {}
deriving DecidableEq, Repr

/-- The observable side effects of one invocation, in order.  attach is the
    AttachmentIntent submission (uc.Attach); startDebug is the direct-mode
    container-start collaborator (config.StartDebugContainer); the two
    listSquashPods effects are the label-filtered pod listings. -/
inductive Eff where
  | listNamespaces
  | listPods (ns : String)
  | listSquashPods (ns : String)
  | getNamespaces
  | listSquashDeployments
  | promptSelect (message : String) (options : List String)
  | promptConfirm (message : String)
  | attach (daName ns image podName containerName debugger : String)
  | sleepFor (seconds : Nat)
  | startDebug (sq : Squash) (dt : DebugTarget)
  | reportOrConnect (podName : String)
  | findFreePort
  | checkPortFree (port : Int)
deriving DecidableEq, Repr

def Eff.isAttach : Eff → Bool
  | .attach _ _ _ _ _ _ => true
  | _ => false

def Eff.isStartDebug : Eff → Bool
  | .startDebug _ _ => true
  | _ => false

def Eff.isPromptSelect : Eff → Bool
  | .promptSelect _ _ => true
  | _ => false

def Eff.isPromptConfirm : Eff → Bool
  | .promptConfirm _ => true
  | _ => false

/-- An effect that is neither an attachment action nor a confirmation. -/
def benignEff (e : Eff) : Bool :=
  !e.isAttach && !e.isStartDebug && !e.isPromptConfirm

/-- An effect that is not an attachment action. -/
def nonAttachEff (e : Eff) : Bool :=
  !e.isAttach && !e.isStartDebug

/-- The environment of one invocation: responses of the cluster API, of the
    external collaborators and of the interactive user.  The cluster state
    may change while the process sleeps, so the two label-filtered pod
    listings of the secure path receive separate response fields.
    Collaborators that live outside src (utils, config, actions and the
    survey library) are Modelled from the spec: each call site supplies the
    arguments of the source and reads back an environment-chosen response. -/
structure Env where
  nsList : Except String (List String)
  podList : String → Except String (List Pod)
  squashPodList1 : String → Except String (List Pod)
  squashPodList2 : String → Except String (List Pod)
  getNamespacesResp : Except String (List String)
  listSquashDeploymentsResp : List String → Except String (List String)
  newUserControllerResp : Except String Unit
  findAnyFreePortResp : Except String Int
  portIsFree : Int → Bool
  startDebugContainerResp : Squash → DebugTarget → Except String Unit
  reportOrConnectResp : Pod → Except String Unit
  availableDebuggers : List String
  debuggerChoice : String
  nsChoice : String
  podChoice : String
  containerChoice : String
  confirmAnswer : Bool

/-- strings.HasPrefix of Go, on the character lists of the strings. -/
def goHasPrefix (s pre : String) : Bool :=
  pre.data.isPrefixOf s.data

def isOkE {α : Type} : Except String α → Bool
  | .ok _ => true
  | .error _ => false

/-- The namespace candidates kept by chooseAllowedNamespace: every listed
    namespace except the one named squash and those with prefix kube- . -/
def namespaceCandidates (items : List String) : List String :=
  items.filter (fun nsname => !(nsname == "squash") && !(goHasPrefix nsname "kube-"))

/-- chooseAllowedNamespace of app.go: list namespaces, exclude the squash
    and kube- namespaces, then auto-select a unique candidate or prompt. -/
def chooseAllowedNamespace (env : Env) (question : String) :
    Except String String × List Eff :=
  match env.nsList with
  | .error e => (.error ("reading namespaces: " ++ e), [Eff.listNamespaces])
  | .ok namespaces =>
    match namespaceCandidates namespaces with
    | [] => (.error "no namespaces available!", [Eff.listNamespaces])
    | [n] => (.ok n, [Eff.listNamespaces])
    | ns => (.ok env.nsChoice, [Eff.listNamespaces, Eff.promptSelect question ns])

/-- The pod-name candidates built by choosePod: all pods when the
    choose-pod override is set or no container was given, otherwise the
    pods with a container whose image has the given container string as a
    prefix. -/
def podCandidates (sq : Squash) (pods : List Pod) : List String :=
  pods.filterMap (fun pod =>
    if sq.ChoosePod || sq.Container == "" then some pod.Name
    else if pod.Containers.any (fun c => goHasPrefix c.Image sq.Container) then some pod.Name
    else none)

/-- choosePod of app.go: list pods of the namespace, build the candidate
    names, auto-select a unique candidate or prompt, then look the chosen
    name up in the full listing. -/
def choosePod (env : Env) (sq : Squash) :
    Except String (Squash × Pod) × List Eff :=
  match env.podList sq.Namespace with
  | .error e => (.error ("reading namesapces: " ++ e), [Eff.listPods sq.Namespace])
  | .ok pods =>
    match podCandidates sq pods with
    | [p] =>
      match pods.find? (fun pod => p == pod.Name) with
      | some pod => (.ok ({ sq with Pod := pod.Name }, pod), [Eff.listPods sq.Namespace])
      | none => (.error "pod not found", [Eff.listPods sq.Namespace])
    | l =>
      match pods.find? (fun pod => env.podChoice == pod.Name) with
      | some pod =>
        (.ok ({ sq with Pod := pod.Name }, pod),
          [Eff.listPods sq.Namespace, Eff.promptSelect "Select a pod" l])
      | none =>
        (.error "pod not found",
          [Eff.listPods sq.Namespace, Eff.promptSelect "Select a pod" l])

/-- chooseContainer of app.go: zero containers is an error, one container
    is auto-selected, otherwise prompt by name and match the choice. -/
def chooseContainer (env : Env) (o : Options) :
    Except String Options × List Eff :=
  match o.DebugTarget.Pod with
  | none => (.error "panic: nil pod", [])
  | some pod =>
    match pod.Containers with
    | [] => (.error "no container to choose from", [])
    | [c] =>
      (.ok { o with DebugTarget := { o.DebugTarget with Container := some c },
                    Squash := { o.Squash with Container := c.Name } }, [])
    | cs =>
      match cs.find? (fun c => env.containerChoice == c.Name) with
      | some c =>
        (.ok { o with DebugTarget := { o.DebugTarget with Container := some c },
                      Squash := { o.Squash with Container := c.Name } },
          [Eff.promptSelect "Select a container" (cs.map Container.Name)])
      | none =>
        (.error "selected container not found",
          [Eff.promptSelect "Select a container" (cs.map Container.Name)])

/-- Modelled from the spec: GetDebugTargetPodFromSpec lives in the config
    package outside src.  Per §3 the DebugTarget must reference the actual
    listed pod object, so an explicitly named pod is resolved against the
    live pod listing of the namespace and an absent name is an error. -/
def getDebugTargetPodFromSpec (env : Env) (sq : Squash) :
    Except String Pod × List Eff :=
  match env.podList sq.Namespace with
  | .error e => (.error e, [Eff.listPods sq.Namespace])
  | .ok pods =>
    match pods.find? (fun p => p.Name == sq.Pod) with
    | some p => (.ok p, [Eff.listPods sq.Namespace])
    | none => (.error "pod not found", [Eff.listPods sq.Namespace])

/-- Modelled from the spec: GetDebugTargetContainerFromSpec lives in the
    config package outside src.  Per §4.2 an explicitly given container
    name is resolved by case-sensitive exact match within the target pod
    and no match is the error selected container not found. -/
def getDebugTargetContainerFromSpec (o : Options) : Except String Options :=
  match o.DebugTarget.Pod with
  | none => .error "panic: nil pod"
  | some pod =>
    match pod.Containers.find? (fun c => c.Name == o.Squash.Container) with
    | some c => .ok { o with DebugTarget := { o.DebugTarget with Container := some c } }
    | none => .error "selected container not found"

/-- The namespace block of GetMissing: when unset, choose one and wrap a
    chooser error with a context message. -/
def getMissingNamespaceStep (env : Env) (o : Options) :
    Except String Options × List Eff :=
  if o.Squash.Namespace == "" then
    match chooseAllowedNamespace env "Select a namespace to debug" with
    | (.error e, effs) => (.error ("choosing namespace: " ++ e), effs)
    | (.ok n, effs) => (.ok { o with Squash := { o.Squash with Namespace := n } }, effs)
  else (.ok o, [])

/-- The pod block of GetMissing: when unset, choose a pod, otherwise
    resolve the explicitly named pod from the listing. -/
def getMissingPodStep (env : Env) (o1 : Options) :
    Except String Options × List Eff :=
  if o1.Squash.Pod == "" then
    match choosePod env o1.Squash with
    | (.error e, effs) => (.error ("choosing pod: " ++ e), effs)
    | (.ok (sq, pod), effs) =>
      (.ok { o1 with Squash := sq,
                     DebugTarget := { o1.DebugTarget with Pod := some pod } }, effs)
  else
    match getDebugTargetPodFromSpec env o1.Squash with
    | (.error e, effs) => (.error e, effs)
    | (.ok pod, effs) =>
      (.ok { o1 with DebugTarget := { o1.DebugTarget with Pod := some pod } }, effs)

/-- The container block of GetMissing: when unset, choose a container,
    otherwise resolve the explicitly named container within the pod. -/
def getMissingContainerStep (env : Env) (o2 : Options) :
    Except String Options × List Eff :=
  if o2.Squash.Container == "" then
    match chooseContainer env o2 with
    | (.error e, effs) => (.error ("choosing container: " ++ e), effs)
    | (.ok o3, effs) => (.ok o3, effs)
  else
    match getDebugTargetContainerFromSpec o2 with
    | .error e => (.error e, [])
    | .ok o3 => (.ok o3, [])

/-- GetMissing of app.go: resolve namespace, then pod, then container. -/
def GetMissing (env : Env) (o : Options) : Except String Options × List Eff :=
  match getMissingNamespaceStep env o with
  | (.error e, effs1) => (.error e, effs1)
  | (.ok o1, effs1) =>
    match getMissingPodStep env o1 with
    | (.error e, effs2) => (.error e, effs1 ++ effs2)
    | (.ok o2, effs2) =>
      match getMissingContainerStep env o2 with
      | (.error e, effs3) => (.error e, effs1 ++ effs2 ++ effs3)
      | (.ok o3, effs3) => (.ok o3, effs1 ++ effs2 ++ effs3)

/-- detectLang of app.go: the heuristic is a stub, both branches yield the
    empty string. -/
def detectLang (sq : Squash) : String :=
  if sq.ChooseDebugger then "" else ""

/-- chooseDebugger of app.go: keep an explicitly given debugger, otherwise
    try detectLang and fall back to a prompt over the supported list. -/
def chooseDebugger (env : Env) (o : Options) : Except String Options × List Eff :=
  if o.Squash.Debugger != "" then (.ok o, [])
  else
    let debugger := detectLang o.Squash
    if debugger == "" then
      (.ok { o with Squash := { o.Squash with Debugger := env.debuggerChoice } },
        [Eff.promptSelect "Select a debugger" env.availableDebuggers])
    else
      (.ok { o with Squash := { o.Squash with Debugger := debugger } }, [])

/-- ensureLocalPort of app.go: port zero asks the allocator for a free
    port (FindAnyFreePort is Modelled from the spec: it lives in the utils
    package outside src); a non-zero port is verified to be unbound. -/
def ensureLocalPort (env : Env) (port : Int) : Except String Int × List Eff :=
  if port == 0 then
    match env.findAnyFreePortResp with
    | .ok p => (.ok p, [Eff.findFreePort])
    | .error e => (.error e, [Eff.findFreePort])
  else
    if env.portIsFree port then (.ok port, [Eff.checkPortFree port])
    else
      (.error ("Port " ++ toString port ++ " already in use. Please choose a different port or remove the --localport flag for a free port to be chosen automatically."),
        [Eff.checkPortFree port])

/-- The resolution pipeline of ensureMinimumSquashConfig before its
    confirmation gate: chooseDebugger, then GetMissing, then
    ensureLocalPort writing the resolved port back into the options. -/
def resolveConfig (env : Env) (o : Options) : Except String Options × List Eff :=
  match chooseDebugger env o with
  | (.error e, effs1) => (.error e, effs1)
  | (.ok o1, effs1) =>
    match GetMissing env o1 with
    | (.error e, effs2) => (.error e, effs1 ++ effs2)
    | (.ok o2, effs2) =>
      match ensureLocalPort env o2.Squash.LocalPort with
      | (.error e, effs3) => (.error e, effs1 ++ effs2 ++ effs3)
      | (.ok p, effs3) =>
        (.ok { o2 with Squash := { o2.Squash with LocalPort := p } },
          effs1 ++ effs2 ++ effs3)

/-- ensureMinimumSquashConfig of app.go: run the resolution pipeline and,
    unless machine mode is set, ask for confirmation naming the debugger
    and the target pod; declining yields the error user aborted. -/
def ensureMinimumSquashConfig (env : Env) (o : Options) :
    Except String Options × List Eff :=
  match resolveConfig env o with
  | (.error e, effs) => (.error e, effs)
  | (.ok o3, effs) =>
    if o3.Squash.Machine then (.ok o3, effs)
    else
      match o3.DebugTarget.Pod with
      | none => (.error "panic: nil pod", effs)
      | some pod =>
        if env.confirmAnswer then
          (.ok o3, effs ++ [Eff.promptConfirm ("Going to attach " ++ o3.Squash.Debugger ++ " to pod " ++ pod.Name ++ ". continue?")])
        else
          (.error "user aborted", effs ++ [Eff.promptConfirm ("Going to attach " ++ o3.Squash.Debugger ++ " to pod " ++ pod.Name ++ ". continue?")])

/-- The message of ensureSquashIsInCluster when no squash deployment was
    found.  The source message additionally names the agent deploy
    command; that final clause is omitted here verbatim for brevity. -/
def squashNotDeployedMsg : String :=
  "Squash must be deployed to the cluster to use secure mode. Either disable secure mode in your squash config file or deploy Squash to your cluster."

/-- ensureSquashIsInCluster of app.go: list all namespaces, list the
    squash deployments across them and fail when none was found. -/
def ensureSquashIsInCluster (env : Env) : Except String Unit × List Eff :=
  match env.getNamespacesResp with
  | .error e => (.error e, [Eff.getNamespaces])
  | .ok nsListResp =>
    match env.listSquashDeploymentsResp nsListResp with
    | .error e => (.error e, [Eff.getNamespaces, Eff.listSquashDeployments])
    | .ok deployments =>
      match deployments with
      | [] => (.error squashNotDeployedMsg, [Eff.getNamespaces, Eff.listSquashDeployments])
      | _ :: _ => (.ok (), [Eff.getNamespaces, Eff.listSquashDeployments])

/-- Modelled from the spec: GenDebugAttachmentName lives in the api
    package outside src.  Per §4.4 and §6 the AttachmentIntent name is a
    deterministic function of the pod and container names. -/
def genDebugAttachmentName (pod container : String) : String :=
  pod ++ "-" ++ container

/-- The go map made from the current pods, keyed by name: a later pod with
    an already present name overwrites the stored pod. -/
def insertPod (m : List Pod) (p : Pod) : List Pod :=
  if m.any (fun q => q.Name == p.Name) then
    m.map (fun q => if q.Name == p.Name then p else q)
  else m ++ [p]

def buildLookup (pods : List Pod) : List Pod :=
  pods.foldl insertPod []

/-- The delete loop of getCreatedPod: remove every initial pod name from
    the lookup map. -/
def removePods (m : List Pod) (initialPods : List Pod) : List Pod :=
  initialPods.foldl (fun acc p => acc.filter (fun q => !(q.Name == p.Name))) m

/-- getCreatedPod of app.go: list the label-filtered pods again, subtract
    the initial pods by name and succeed exactly when one pod remains,
    otherwise report the actual count. -/
def getCreatedPod (env : Env) (sq : Squash) (initialPods : List Pod) :
    Except String Pod × List Eff :=
  match env.squashPodList2 sq.Namespace with
  | .error e => (.error e, [Eff.listSquashPods sq.Namespace])
  | .ok currentPods =>
    match removePods (buildLookup currentPods) initialPods with
    | [p] => (.ok p, [Eff.listSquashPods sq.Namespace])
    | l =>
      (.error ("Expected to find one newly created squash debug pod, found " ++ toString l.length),
        [Eff.listSquashPods sq.Namespace])

/-- runBaseCommandWithRbac of app.go: check the squash deployment, build
    the user controller, snapshot the labeled pods, submit the attachment
    (the source discards the error returned by Attach), sleep the fixed
    grace period, diff the snapshots and report the created pod. -/
def runBaseCommandWithRbac (env : Env) (top : Options) :
    Except String Unit × List Eff :=
  match ensureSquashIsInCluster env with
  | (.error e, effs0) => (.error e, effs0)
  | (.ok _, effs0) =>
    match env.newUserControllerResp with
    | .error e => (.error e, effs0)
    | .ok _ =>
      match env.squashPodList1 top.Squash.Namespace with
      | .error e => (.error e, effs0 ++ [Eff.listSquashPods top.Squash.Namespace])
      | .ok initialPods =>
        match top.DebugTarget.Pod, top.DebugTarget.Container with
        | some dbgePod, some dbgeContainer =>
          match getCreatedPod env top.Squash initialPods with
          | (.error e, effs2) =>
            (.error e,
              effs0 ++ [Eff.listSquashPods top.Squash.Namespace,
                Eff.attach (genDebugAttachmentName top.Squash.Pod top.Squash.Container)
                  top.Squash.Namespace dbgeContainer.Image dbgePod.Name
                  top.Squash.Container top.Squash.Debugger,
                Eff.sleepFor 3] ++ effs2)
          | (.ok createdPod, effs2) =>
            (env.reportOrConnectResp createdPod,
              effs0 ++ [Eff.listSquashPods top.Squash.Namespace,
                Eff.attach (genDebugAttachmentName top.Squash.Pod top.Squash.Container)
                  top.Squash.Namespace dbgeContainer.Image dbgePod.Name
                  top.Squash.Container top.Squash.Debugger,
                Eff.sleepFor 3] ++ effs2 ++ [Eff.reportOrConnect createdPod.Name])
        | _, _ =>
          (.error "panic: nil debug target",
            effs0 ++ [Eff.listSquashPods top.Squash.Namespace])

/-- runBaseCommand of app.go: resolve the configuration, then either run
    the secure path or delegate to the container-start collaborator. -/
def runBaseCommand (env : Env) (o : Options) : Except String Unit × List Eff :=
  match ensureMinimumSquashConfig env o with
  | (.error e, effs) => (.error e, effs)
  | (.ok o1, effs) =>
    if o1.secureMode then
      match runBaseCommandWithRbac env o1 with
      | (r, effs2) => (r, effs ++ effs2)
    else
      (env.startDebugContainerResp o1.Squash o1.DebugTarget,
        effs ++ [Eff.startDebug o1.Squash o1.DebugTarget])

/-- A base environment with well-formed responses, used to build the
    concrete environments of the witnesses below. -/
def envBase : Env where
  nsList := .ok ["ns1"]
  podList := fun _ => .ok [⟨"p1", [⟨"app", "img1"⟩]⟩]
  squashPodList1 := fun _ => .ok []
  squashPodList2 := fun _ => .ok [⟨"dbg1", []⟩]
  getNamespacesResp := .ok ["ns1"]
  listSquashDeploymentsResp := fun _ => .ok ["squash-dep"]
  newUserControllerResp := .ok ()
  findAnyFreePortResp := .ok 4321
  portIsFree := fun _ => true
  startDebugContainerResp := fun _ _ => .ok ()
  reportOrConnectResp := fun _ => .ok ()
  availableDebuggers := ["dlv", "gdb"]
  debuggerChoice := "dlv"
  nsChoice := "ns1"
  podChoice := "p1"
  containerChoice := "app"
  confirmAnswer := true

def envC9 : Env := { envBase with nsList := .ok ["squash", "kube-a"] }

def envC4 : Env := { envBase with podList := fun _ => .ok [] }

def envC4b : Env := { envBase with nsList := .ok ["kube-a"] }

def oNoContainers : Options :=
  { Squash := {}, DebugTarget := { Pod := some ⟨"p0", []⟩ } }

def envC3 : Env := { envBase with nsList := .ok ["ns1", "ns2", "squash", "kube-system"] }

def oC3 : Options := { Squash := { Debugger := "dlv", Machine := true, LocalPort := 8080 } }

def envC3b : Env := { envBase with nsList := .ok ["ns1", "ns2"] }

def envC2 : Env := { envBase with listSquashDeploymentsResp := fun _ => .ok [] }

def oC10 : Options :=
  { Squash := { Namespace := "ns1", Pod := "p1", Container := "app",
                Debugger := "dlv", LocalPort := 8080, Machine := true },
    secureMode := false }

def o1W : Options :=
  { Squash := { Namespace := "ns1", Pod := "p1", Container := "app",
                Debugger := "dlv", LocalPort := 8080, Machine := true },
    secureMode := false,
    DebugTarget := { Pod := some ⟨"p1", [⟨"app", "img1"⟩]⟩,
                     Container := some ⟨"app", "img1"⟩ } }

def oC6 : Options := { Squash := {} }

def o5C6 : Options :=
  { Squash := { Namespace := "ns1", Pod := "p1", Container := "app",
                Debugger := "dlv", LocalPort := 4321 },
    secureMode := false,
    DebugTarget := { Pod := some ⟨"p1", [⟨"app", "img1"⟩]⟩,
                     Container := some ⟨"app", "img1"⟩ } }

def envC8 : Env := { envBase with confirmAnswer := false }

def oC8 : Options :=
  { Squash := { Namespace := "ns1", Pod := "p1", Container := "app",
                Debugger := "dlv", LocalPort := 8080 } }

def o2C8 : Options :=
  { Squash := { Namespace := "ns1", Pod := "p1", Container := "app",
                Debugger := "dlv", LocalPort := 8080 },
    DebugTarget := { Pod := some ⟨"p1", [⟨"app", "img1"⟩]⟩,
                     Container := some ⟨"app", "img1"⟩ } }

def oC5 : Options :=
  { Squash := { Namespace := "ns1", Pod := "p1", Container := "app",
                Debugger := "dlv", LocalPort := 8080, Machine := true },
    secureMode := true }

def o1C5 : Options :=
  { Squash := { Namespace := "ns1", Pod := "p1", Container := "app",
                Debugger := "dlv", LocalPort := 8080, Machine := true },
    secureMode := true,
    DebugTarget := { Pod := some ⟨"p1", [⟨"app", "img1"⟩]⟩,
                     Container := some ⟨"app", "img1"⟩ } }

def envC1 : Env := { envBase with squashPodList2 := fun _ => .ok [⟨"a", []⟩, ⟨"c", []⟩] }

def podsW7 : List Pod := [⟨"p1", [⟨"app", "imgA"⟩]⟩, ⟨"p2", [⟨"app", "other"⟩]⟩]

def sqW7a : Squash := { Container := "img" }

def sqW7b : Squash := { ChoosePod := true, Container := "img" }

/-- C9: during namespace resolution the candidate list never contains the
squash system namespace nor a kube- prefixed namespace, and when the
exclusion leaves zero candidates the resolver fails with the
no-namespaces-available error. -/
theorem c9_namespace_exclusion (env : Env) (question : String) (nsl : List String)
    (h : env.nsList = .ok nsl) :
    ("squash" ∉ namespaceCandidates nsl
       ∧ ∀ n ∈ namespaceCandidates nsl, goHasPrefix n "kube-" = false)
    ∧ (namespaceCandidates nsl = [] →
        chooseAllowedNamespace env question =
          (.error "no namespaces available!", [Eff.listNamespaces])) := by
  refine ⟨⟨?_, ?_⟩, ?_⟩
  · intro hmem
    simp [namespaceCandidates, List.mem_filter] at hmem
  · intro n hn
    simp only [namespaceCandidates, List.mem_filter, Bool.and_eq_true,
      Bool.not_eq_true'] at hn
    exact hn.2.2
  · intro hempty
    simp [chooseAllowedNamespace, h, hempty]

theorem c9_witness :
    "squash" ∉ namespaceCandidates ["squash", "kube-a"]
    ∧ chooseAllowedNamespace envC9 "Select a namespace to debug" =
        (.error "no namespaces available!", [Eff.listNamespaces]) :=
  ⟨(c9_namespace_exclusion envC9 "Select a namespace to debug" ["squash", "kube-a"] rfl).1.1,
   (c9_namespace_exclusion envC9 "Select a namespace to debug" ["squash", "kube-a"] rfl).2
     (by decide)⟩

/-- C4 counterexample: with zero pods in the namespace, pod resolution
issues an interactive prompt (with an empty option list) before failing,
and its error does not carry a count, contradicting the claim that a
zero-candidate list fails hard rather than prompting. -/
theorem c4_counterexample :
    Eff.promptSelect "Select a pod" [] ∈ (choosePod envC4 { Namespace := "ns1" }).2
    ∧ (choosePod envC4 { Namespace := "ns1" }).1 = .error "pod not found" :=
  ⟨by decide, rfl⟩

/-- C4 amended: zero-candidate namespace and container resolution fail
immediately and without prompting (with errors that carry no count), while
zero-candidate pod resolution first issues one empty-option prompt and
then fails with the pod-not-found error. -/
theorem c4_amended :
    (∀ (env : Env) (question : String) (nsl : List String),
        env.nsList = .ok nsl → namespaceCandidates nsl = [] →
        chooseAllowedNamespace env question =
          (.error "no namespaces available!", [Eff.listNamespaces]))
    ∧ (∀ (env : Env) (o : Options) (pod : Pod),
        o.DebugTarget.Pod = some pod → pod.Containers = [] →
        chooseContainer env o = (.error "no container to choose from", []))
    ∧ (∀ (env : Env) (sq : Squash),
        env.podList sq.Namespace = .ok [] →
        choosePod env sq =
          (.error "pod not found",
            [Eff.listPods sq.Namespace, Eff.promptSelect "Select a pod" []])) := by
  refine ⟨?_, ?_, ?_⟩
  · intro env question nsl h hempty
    simp [chooseAllowedNamespace, h, hempty]
  · intro env o pod hdt hempty
    simp [chooseContainer, hdt, hempty]
  · intro env sq h
    simp [choosePod, h, podCandidates]

theorem c4_witness :
    chooseAllowedNamespace envC4b "q" = (.error "no namespaces available!", [Eff.listNamespaces])
    ∧ chooseContainer envBase oNoContainers = (.error "no container to choose from", [])
    ∧ choosePod envC4 { Namespace := "ns1" } =
        (.error "pod not found", [Eff.listPods "ns1", Eff.promptSelect "Select a pod" []]) :=
  ⟨c4_amended.1 envC4b "q" ["kube-a"] rfl (by decide),
   c4_amended.2.1 envBase oNoContainers ⟨"p0", []⟩ rfl rfl,
   c4_amended.2.2 envC4 { Namespace := "ns1" } rfl⟩

/-- C3 counterexample: with machine mode enabled and two namespace
candidates, resolution still issues an interactive prompt and succeeds,
contradicting the claim that machine mode fails without prompting. -/
theorem c3_counterexample :
    oC3.Squash.Machine = true
    ∧ Eff.promptSelect "Select a namespace to debug" ["ns1", "ns2"] ∈
        (ensureMinimumSquashConfig envC3 oC3).2
    ∧ isOkE (ensureMinimumSquashConfig envC3 oC3).1 = true := by
  refine ⟨rfl, ?_, ?_⟩
  · decide
  · decide

/-- C3 amended: for every candidate list of size at least two during
namespace, pod, or container resolution, the resolver issues exactly one
single-choice prompt and accepts only listed values, in machine mode and
interactive mode alike: none of the three resolvers consults the machine
flag, so machine mode does not suppress the prompt or fail fast. -/
theorem c3_amended :
    (∀ (env : Env) (question : String) (nsl : List String) (a b : String) (rest : List String),
        env.nsList = .ok nsl → namespaceCandidates nsl = a :: b :: rest →
        (chooseAllowedNamespace env question).2.countP Eff.isPromptSelect = 1
        ∧ ((chooseAllowedNamespace env question).1 = .ok env.nsChoice))
    ∧ (∀ (env : Env) (sq : Squash) (pods : List Pod) (a b : String) (rest : List String),
        env.podList sq.Namespace = .ok pods → podCandidates sq pods = a :: b :: rest →
        (choosePod env sq).2.countP Eff.isPromptSelect = 1
        ∧ ∀ sq2 pod, (choosePod env sq).1 = .ok (sq2, pod) →
            pod ∈ pods ∧ pod.Name = env.podChoice)
    ∧ (∀ (env : Env) (o : Options) (pod : Pod) (c1 c2 : Container) (rest : List Container),
        o.DebugTarget.Pod = some pod → pod.Containers = c1 :: c2 :: rest →
        (chooseContainer env o).2.countP Eff.isPromptSelect = 1
        ∧ ∀ o2, (chooseContainer env o).1 = .ok o2 →
            ∃ c ∈ pod.Containers, o2.Squash.Container = c.Name
              ∧ c.Name = env.containerChoice) := by
  refine ⟨?_, ?_, ?_⟩
  · intro env question nsl a b rest h hcand
    constructor
    · simp [chooseAllowedNamespace, h, hcand, List.countP_cons, List.countP_nil,
        Eff.isPromptSelect]
    · simp [chooseAllowedNamespace, h, hcand]
  · intro env sq pods a b rest h hcand
    cases hf : pods.find? (fun pod => env.podChoice == pod.Name) with
    | none =>
      constructor
      · simp [choosePod, h, hcand, hf, List.countP_cons, List.countP_nil,
          Eff.isPromptSelect]
      · intro sq2 pod hok
        simp [choosePod, h, hcand, hf] at hok
    | some pod =>
      have hmem := List.mem_of_find?_eq_some hf
      have hprop := List.find?_some hf
      constructor
      · simp [choosePod, h, hcand, hf, List.countP_cons, List.countP_nil,
          Eff.isPromptSelect]
      · intro sq2 pod2 hok
        simp [choosePod, h, hcand, hf] at hok
        obtain ⟨-, h2⟩ := hok
        subst h2
        exact ⟨hmem, ((beq_iff_eq).mp hprop).symm⟩
  · intro env o pod c1 c2 rest hdt hcs
    cases hf : (c1 :: c2 :: rest).find? (fun c => env.containerChoice == c.Name) with
    | none =>
      constructor
      · simp [chooseContainer, hdt, hcs, hf, List.countP_cons, List.countP_nil,
          Eff.isPromptSelect]
      · intro o2 hok
        simp [chooseContainer, hdt, hcs, hf] at hok
    | some c =>
      have hmem := List.mem_of_find?_eq_some hf
      have hprop := List.find?_some hf
      constructor
      · simp [chooseContainer, hdt, hcs, hf, List.countP_cons, List.countP_nil,
          Eff.isPromptSelect]
      · intro o2 hok
        simp [chooseContainer, hdt, hcs, hf] at hok
        refine ⟨c, by rw [hcs]; exact hmem, ?_, ((beq_iff_eq).mp hprop).symm⟩
        rw [← hok]

theorem c3_witness :
    (chooseAllowedNamespace envC3b "q").2.countP Eff.isPromptSelect = 1
    ∧ (chooseAllowedNamespace envC3b "q").1 = .ok "ns1" :=
  ⟨(c3_amended.1 envC3b "q" ["ns1", "ns2"] "ns1" "ns2" [] rfl (by decide)).1,
   (c3_amended.1 envC3b "q" ["ns1", "ns2"] "ns1" "ns2" [] rfl (by decide)).2⟩

theorem filterMap_if_eq_map_filter {α β : Type} (p : α → Bool) (f : α → β) (l : List α) :
    l.filterMap (fun a => if p a then some (f a) else none) = (l.filter p).map f := by
  induction l with
  | nil => rfl
  | cons a l ih =>
    by_cases hp : p a = true
    · rw [List.filterMap_cons, List.filter_cons]
      simp [hp, ih]
    · simp only [Bool.not_eq_true] at hp
      rw [List.filterMap_cons, List.filter_cons]
      simp [hp, ih]

theorem filterMap_some_eq_map {α β : Type} (f : α → β) (l : List α) :
    l.filterMap (fun a => some (f a)) = l.map f := by
  induction l with
  | nil => rfl
  | cons a l ih => rw [List.filterMap_cons]; simp [ih]

/-- C7: with a container option set and no choose-pod override, the pod
candidates are exactly the pods having a container whose image has the
container string as a prefix; with the override set or no container
option, every listed pod is a candidate. -/
theorem c7_pod_candidates (sq : Squash) (pods : List Pod) :
    (sq.ChoosePod = false → sq.Container ≠ "" →
      podCandidates sq pods =
        (pods.filter
          (fun p => p.Containers.any (fun c => goHasPrefix c.Image sq.Container))).map Pod.Name)
    ∧ (sq.ChoosePod = true ∨ sq.Container = "" →
      podCandidates sq pods = pods.map Pod.Name) := by
  constructor
  · intro h1 h2
    have hb : (sq.ChoosePod || sq.Container == "") = false := by
      simp [h1, h2]
    have hfun : podCandidates sq pods =
        pods.filterMap (fun pod =>
          if pod.Containers.any (fun c => goHasPrefix c.Image sq.Container) then
            some pod.Name
          else none) := by
      unfold podCandidates
      congr 1
      funext pod
      rw [hb]
      simp
    rw [hfun, filterMap_if_eq_map_filter]
  · intro h
    have hb : (sq.ChoosePod || sq.Container == "") = true := by
      rcases h with h | h <;> simp [h]
    have hfun : podCandidates sq pods = pods.filterMap (fun pod => some pod.Name) := by
      unfold podCandidates
      congr 1
      funext pod
      rw [hb]
      simp
    rw [hfun, filterMap_some_eq_map]

theorem benign_nonAttach {e : Eff} (h : benignEff e = true) : nonAttachEff e = true := by
  unfold benignEff at h
  unfold nonAttachEff
  simp only [Bool.and_eq_true] at h ⊢
  exact ⟨h.1.1, h.1.2⟩

theorem all_append_pred {α : Type} {p : α → Bool} {l1 l2 : List α}
    (h1 : l1.all p = true) (h2 : l2.all p = true) : (l1 ++ l2).all p = true := by
  rw [List.all_append, Bool.and_eq_true]
  exact ⟨h1, h2⟩

theorem detectLang_eq (sq : Squash) : detectLang sq = "" := by
  unfold detectLang
  exact ite_self ""

theorem chooseAllowedNamespace_benign (env : Env) (q : String) :
    ((chooseAllowedNamespace env q).2).all benignEff = true := by
  unfold chooseAllowedNamespace
  split
  · rfl
  · split <;> rfl

theorem choosePod_benign (env : Env) (sq : Squash) :
    ((choosePod env sq).2).all benignEff = true := by
  unfold choosePod
  split
  · rfl
  · split <;> split <;> rfl

theorem chooseContainer_benign (env : Env) (o : Options) :
    ((chooseContainer env o).2).all benignEff = true := by
  unfold chooseContainer
  split
  · rfl
  · split
    · rfl
    · rfl
    · split <;> rfl

theorem getDebugTargetPodFromSpec_benign (env : Env) (sq : Squash) :
    ((getDebugTargetPodFromSpec env sq).2).all benignEff = true := by
  unfold getDebugTargetPodFromSpec
  split
  · rfl
  · split <;> rfl

theorem getMissingNamespaceStep_benign (env : Env) (o : Options) :
    ((getMissingNamespaceStep env o).2).all benignEff = true := by
  unfold getMissingNamespaceStep
  split
  · split <;>
      (rename_i heq
       have h2 := chooseAllowedNamespace_benign env "Select a namespace to debug"
       rw [heq] at h2
       exact h2)
  · rfl

theorem getMissingPodStep_benign (env : Env) (o1 : Options) :
    ((getMissingPodStep env o1).2).all benignEff = true := by
  unfold getMissingPodStep
  split
  · split <;>
      (rename_i heq
       have h2 := choosePod_benign env o1.Squash
       rw [heq] at h2
       exact h2)
  · split <;>
      (rename_i heq
       have h2 := getDebugTargetPodFromSpec_benign env o1.Squash
       rw [heq] at h2
       exact h2)

theorem getMissingContainerStep_benign (env : Env) (o2 : Options) :
    ((getMissingContainerStep env o2).2).all benignEff = true := by
  unfold getMissingContainerStep
  split
  · split <;>
      (rename_i heq
       have h2 := chooseContainer_benign env o2
       rw [heq] at h2
       exact h2)
  · split <;> rfl

theorem GetMissing_benign (env : Env) (o : Options) :
    ((GetMissing env o).2).all benignEff = true := by
  unfold GetMissing
  split
  · rename_i heq
    have h1 := getMissingNamespaceStep_benign env o
    rw [heq] at h1
    exact h1
  · rename_i o1 effs1 heq1
    have h1 := getMissingNamespaceStep_benign env o
    rw [heq1] at h1
    split
    · rename_i heq2
      have h2 := getMissingPodStep_benign env o1
      rw [heq2] at h2
      exact all_append_pred h1 h2
    · rename_i o2 effs2 heq2
      have h2 := getMissingPodStep_benign env o1
      rw [heq2] at h2
      split <;>
        (rename_i heq3
         have h3 := getMissingContainerStep_benign env o2
         rw [heq3] at h3
         exact all_append_pred (all_append_pred h1 h2) h3)

theorem chooseDebugger_benign (env : Env) (o : Options) :
    ((chooseDebugger env o).2).all benignEff = true := by
  unfold chooseDebugger
  split
  · rfl
  · simp only [detectLang_eq]
    rfl

theorem ensureLocalPort_benign (env : Env) (port : Int) :
    ((ensureLocalPort env port).2).all benignEff = true := by
  unfold ensureLocalPort
  split
  · split <;> rfl
  · split <;> rfl

theorem resolveConfig_benign (env : Env) (o : Options) :
    ((resolveConfig env o).2).all benignEff = true := by
  unfold resolveConfig
  split
  · rename_i heq
    have h1 := chooseDebugger_benign env o
    rw [heq] at h1
    exact h1
  · rename_i o1 effs1 heq1
    have h1 := chooseDebugger_benign env o
    rw [heq1] at h1
    split
    · rename_i heq2
      have h2 := GetMissing_benign env o1
      rw [heq2] at h2
      exact all_append_pred h1 h2
    · rename_i o2 effs2 heq2
      have h2 := GetMissing_benign env o1
      rw [heq2] at h2
      split <;>
        (rename_i heq3
         have h3 := ensureLocalPort_benign env o2.Squash.LocalPort
         rw [heq3] at h3
         exact all_append_pred (all_append_pred h1 h2) h3)

theorem ensureSquashIsInCluster_benign (env : Env) :
    ((ensureSquashIsInCluster env).2).all benignEff = true := by
  unfold ensureSquashIsInCluster
  split
  · rfl
  · split
    · rfl
    · split <;> rfl

theorem getCreatedPod_effs (env : Env) (sq : Squash) (initialPods : List Pod) :
    (getCreatedPod env sq initialPods).2 = [Eff.listSquashPods sq.Namespace] := by
  unfold getCreatedPod
  split
  · rfl
  · split <;> rfl

theorem ensureSquashIsInCluster_ok (env : Env) (u : Unit) (effs : List Eff)
    (h : ensureSquashIsInCluster env = (.ok u, effs)) :
    ∃ nsl deps, env.getNamespacesResp = .ok nsl
      ∧ env.listSquashDeploymentsResp nsl = .ok deps ∧ deps ≠ [] := by
  unfold ensureSquashIsInCluster at h
  split at h
  · simp at h
  · rename_i nsl2 heq1
    split at h
    · simp at h
    · rename_i deps heq2
      split at h
      · simp at h
      · rename_i hd tl
        exact ⟨nsl2, hd :: tl, heq1, heq2, by simp⟩

/-- C2: in secure mode with no squash deployment anywhere, the attachment
fails with the deploy-or-disable message, never submits an
AttachmentIntent and never falls back to direct mode; moreover, across
all runs an intent submission can only occur after the deployment check
has succeeded on a nonempty deployment list. -/
theorem c2_secure_precondition (env : Env) (o : Options) (nsl : List String)
    (h1 : env.getNamespacesResp = .ok nsl)
    (h2 : env.listSquashDeploymentsResp nsl = .ok []) :
    (runBaseCommandWithRbac env o).1 = .error squashNotDeployedMsg
    ∧ (∀ e ∈ (runBaseCommandWithRbac env o).2, e.isAttach = false ∧ e.isStartDebug = false)
    ∧ (∀ (env2 : Env) (o2 : Options) (a b c d f g : String),
        Eff.attach a b c d f g ∈ (runBaseCommandWithRbac env2 o2).2 →
        ∃ nsl2 deps, env2.getNamespacesResp = .ok nsl2
          ∧ env2.listSquashDeploymentsResp nsl2 = .ok deps ∧ deps ≠ []) := by
  have hcheck : ensureSquashIsInCluster env =
      (.error squashNotDeployedMsg, [Eff.getNamespaces, Eff.listSquashDeployments]) := by
    unfold ensureSquashIsInCluster
    rw [h1]
    simp [h2]
  refine ⟨?_, ?_, ?_⟩
  · unfold runBaseCommandWithRbac
    rw [hcheck]
  · unfold runBaseCommandWithRbac
    rw [hcheck]
    intro e he
    simp at he
    rcases he with rfl | rfl <;> exact ⟨rfl, rfl⟩
  · intro env2 o2 a b c d f g hmem
    unfold runBaseCommandWithRbac at hmem
    split at hmem
    · rename_i e effs0 heqA
      have hb := ensureSquashIsInCluster_benign env2
      rw [heqA] at hb
      rw [List.all_eq_true] at hb
      have hcontra := hb _ hmem
      simp [benignEff, Eff.isAttach] at hcontra
    · rename_i u effs0 heqB
      exact ensureSquashIsInCluster_ok env2 u effs0 heqB

theorem c2_witness :
    (runBaseCommandWithRbac envC2 { Squash := {} }).1 = .error squashNotDeployedMsg :=
  (c2_secure_precondition envC2 { Squash := {} } ["ns1"] rfl rfl).1

theorem c7_witness :
    podCandidates sqW7a podsW7 =
      (podsW7.filter
        (fun p => p.Containers.any (fun c => goHasPrefix c.Image sqW7a.Container))).map Pod.Name
    ∧ podCandidates sqW7b podsW7 = podsW7.map Pod.Name :=
  ⟨(c7_pod_candidates sqW7a podsW7).1 rfl (by decide),
   (c7_pod_candidates sqW7b podsW7).2 (Or.inl rfl)⟩

theorem all_nonAttach_of_benign {l : List Eff} (h : l.all benignEff = true) :
    l.all nonAttachEff = true := by
  rw [List.all_eq_true] at h ⊢
  intro e he
  exact benign_nonAttach (h e he)

theorem chooseAllowedNamespace_ok_ne (env : Env) (q n : String)
    (h : (chooseAllowedNamespace env q).1 = .ok n)
    (hne : ∀ nsl x, env.nsList = .ok nsl → x ∈ nsl → x ≠ "")
    (hch : env.nsChoice ≠ "") : n ≠ "" := by
  unfold chooseAllowedNamespace at h
  split at h
  · simp at h
  · rename_i nsl heq0
    split at h
    · simp at h
    · rename_i n2 heq1
      simp only [Except.ok.injEq] at h
      subst h
      have hmem : n2 ∈ namespaceCandidates nsl := by
        rw [heq1]
        exact List.mem_singleton_self n2
      have hmem2 : n2 ∈ nsl := by
        unfold namespaceCandidates at hmem
        exact (List.mem_filter.mp hmem).1
      exact hne nsl n2 heq0 hmem2
    · simp only [Except.ok.injEq] at h
      subst h
      exact hch

theorem chooseDebugger_ok (env : Env) (o o1 : Options) (effs : List Eff)
    (h : chooseDebugger env o = (.ok o1, effs)) :
    o1.secureMode = o.secureMode ∧ o1.DebugTarget = o.DebugTarget
    ∧ o1.Squash.Namespace = o.Squash.Namespace ∧ o1.Squash.Pod = o.Squash.Pod
    ∧ o1.Squash.Container = o.Squash.Container ∧ o1.Squash.LocalPort = o.Squash.LocalPort
    ∧ o1.Squash.Machine = o.Squash.Machine
    ∧ ((o1.Squash.Debugger = o.Squash.Debugger ∧ o.Squash.Debugger ≠ "")
        ∨ o1.Squash.Debugger = env.debuggerChoice) := by
  unfold chooseDebugger at h
  split at h
  · rename_i hcond
    have hne : o.Squash.Debugger ≠ "" := by simpa [bne_iff_ne] using hcond
    simp only [Prod.mk.injEq, Except.ok.injEq] at h
    obtain ⟨ho, -⟩ := h
    subst ho
    exact ⟨rfl, rfl, rfl, rfl, rfl, rfl, rfl, Or.inl ⟨rfl, hne⟩⟩
  · simp only [detectLang_eq] at h
    simp only [beq_self_eq_true, if_true, Prod.mk.injEq, Except.ok.injEq] at h
    obtain ⟨ho, -⟩ := h
    subst ho
    exact ⟨rfl, rfl, rfl, rfl, rfl, rfl, rfl, Or.inr rfl⟩

theorem getMissingNamespaceStep_ok (env : Env) (o o1 : Options) (effs : List Eff)
    (h : getMissingNamespaceStep env o = (.ok o1, effs)) :
    (o1.secureMode = o.secureMode ∧ o1.DebugTarget = o.DebugTarget
      ∧ o1.Squash.Pod = o.Squash.Pod ∧ o1.Squash.Container = o.Squash.Container
      ∧ o1.Squash.Debugger = o.Squash.Debugger ∧ o1.Squash.LocalPort = o.Squash.LocalPort
      ∧ o1.Squash.Machine = o.Squash.Machine)
    ∧ ((∀ nsl x, env.nsList = .ok nsl → x ∈ nsl → x ≠ "") → env.nsChoice ≠ "" →
        o1.Squash.Namespace ≠ "") := by
  unfold getMissingNamespaceStep at h
  split at h
  · split at h
    · simp at h
    · rename_i n effs2 heq
      simp only [Prod.mk.injEq, Except.ok.injEq] at h
      obtain ⟨ho, -⟩ := h
      subst ho
      refine ⟨⟨rfl, rfl, rfl, rfl, rfl, rfl, rfl⟩, ?_⟩
      intro hne hch
      have hok : (chooseAllowedNamespace env "Select a namespace to debug").1 = .ok n := by
        rw [heq]
      exact chooseAllowedNamespace_ok_ne env _ n hok hne hch
  · rename_i hcond
    simp only [Prod.mk.injEq, Except.ok.injEq] at h
    obtain ⟨ho, -⟩ := h
    subst ho
    refine ⟨⟨rfl, rfl, rfl, rfl, rfl, rfl, rfl⟩, ?_⟩
    intro _ _
    simpa using hcond

theorem choosePod_ok (env : Env) (sq sq2 : Squash) (pod : Pod) (effs : List Eff)
    (h : choosePod env sq = (.ok (sq2, pod), effs)) :
    ∃ pods, env.podList sq.Namespace = .ok pods ∧ pod ∈ pods
      ∧ sq2 = { sq with Pod := pod.Name } := by
  unfold choosePod at h
  split at h
  · simp at h
  · rename_i pods heq0
    split at h
    · split at h
      · rename_i pod2 heq2
        simp only [Prod.mk.injEq, Except.ok.injEq] at h
        obtain ⟨⟨hs, hp⟩, -⟩ := h
        subst hp
        subst hs
        exact ⟨pods, heq0, List.mem_of_find?_eq_some heq2, rfl⟩
      · simp at h
    · split at h
      · rename_i pod2 heq2
        simp only [Prod.mk.injEq, Except.ok.injEq] at h
        obtain ⟨⟨hs, hp⟩, -⟩ := h
        subst hp
        subst hs
        exact ⟨pods, heq0, List.mem_of_find?_eq_some heq2, rfl⟩
      · simp at h

theorem getDebugTargetPodFromSpec_ok (env : Env) (sq : Squash) (pod : Pod) (effs : List Eff)
    (h : getDebugTargetPodFromSpec env sq = (.ok pod, effs)) :
    ∃ pods, env.podList sq.Namespace = .ok pods ∧ pod ∈ pods
      ∧ pod.Name = sq.Pod := by
  unfold getDebugTargetPodFromSpec at h
  split at h
  · simp at h
  · rename_i pods heq0
    split at h
    · rename_i pod2 heq2
      simp only [Prod.mk.injEq, Except.ok.injEq] at h
      obtain ⟨hp, -⟩ := h
      subst hp
      have hpr := List.find?_some heq2
      exact ⟨pods, heq0, List.mem_of_find?_eq_some heq2, by simpa using hpr⟩
    · simp at h

theorem chooseContainer_ok (env : Env) (o o2 : Options) (effs : List Eff)
    (h : chooseContainer env o = (.ok o2, effs)) :
    ∃ pod c, o.DebugTarget.Pod = some pod ∧ c ∈ pod.Containers
      ∧ o2.Squash.Container = c.Name
      ∧ o2.Squash.Namespace = o.Squash.Namespace ∧ o2.Squash.Pod = o.Squash.Pod
      ∧ o2.Squash.Debugger = o.Squash.Debugger ∧ o2.Squash.LocalPort = o.Squash.LocalPort
      ∧ o2.Squash.Machine = o.Squash.Machine ∧ o2.DebugTarget.Pod = o.DebugTarget.Pod
      ∧ o2.secureMode = o.secureMode := by
  unfold chooseContainer at h
  split at h
  · simp at h
  · rename_i pod heq0
    split at h
    · simp at h
    · rename_i c heq1
      simp only [Prod.mk.injEq, Except.ok.injEq] at h
      obtain ⟨ho, -⟩ := h
      subst ho
      refine ⟨pod, c, heq0, ?_, rfl, rfl, rfl, rfl, rfl, rfl, ?_, rfl⟩
      · rw [heq1]
        exact List.mem_singleton_self c
      · rfl
    · rename_i cs heq1
      split at h
      · rename_i c heq2
        simp only [Prod.mk.injEq, Except.ok.injEq] at h
        obtain ⟨ho, -⟩ := h
        subst ho
        refine ⟨pod, c, heq0, ?_, rfl, rfl, rfl, rfl, rfl, rfl, ?_, rfl⟩
        · exact List.mem_of_find?_eq_some heq2
        · rfl
      · simp at h

theorem getDebugTargetContainerFromSpec_ok (o o2 : Options)
    (h : getDebugTargetContainerFromSpec o = .ok o2) :
    o2.Squash = o.Squash ∧ o2.DebugTarget.Pod = o.DebugTarget.Pod
      ∧ o2.secureMode = o.secureMode := by
  unfold getDebugTargetContainerFromSpec at h
  split at h
  · simp at h
  · rename_i pod heq0
    split at h
    · rename_i c heq1
      simp only [Except.ok.injEq] at h
      subst h
      exact ⟨rfl, rfl, rfl⟩
    · simp at h

theorem getMissingPodStep_ok (env : Env) (o1 o2 : Options) (effs : List Eff)
    (h : getMissingPodStep env o1 = (.ok o2, effs)) :
    (o2.secureMode = o1.secureMode ∧ o2.Squash.Namespace = o1.Squash.Namespace
      ∧ o2.Squash.Container = o1.Squash.Container ∧ o2.Squash.Debugger = o1.Squash.Debugger
      ∧ o2.Squash.LocalPort = o1.Squash.LocalPort ∧ o2.Squash.Machine = o1.Squash.Machine
      ∧ o2.DebugTarget.Container = o1.DebugTarget.Container)
    ∧ (∃ pods pod, env.podList o1.Squash.Namespace = .ok pods ∧ pod ∈ pods
        ∧ o2.DebugTarget.Pod = some pod ∧ o2.Squash.Pod = pod.Name) := by
  unfold getMissingPodStep at h
  split at h
  · split at h
    · simp at h
    · rename_i sq pod effs2 heq
      simp only [Prod.mk.injEq, Except.ok.injEq] at h
      obtain ⟨ho, -⟩ := h
      subst ho
      obtain ⟨pods, hlist, hmem, hsq⟩ :=
        choosePod_ok env o1.Squash sq pod effs2 heq
      subst hsq
      exact ⟨⟨rfl, rfl, rfl, rfl, rfl, rfl, rfl⟩,
        pods, pod, hlist, hmem, rfl, rfl⟩
  · rename_i hcond
    split at h
    · simp at h
    · rename_i pod effs2 heq
      simp only [Prod.mk.injEq, Except.ok.injEq] at h
      obtain ⟨ho, -⟩ := h
      subst ho
      obtain ⟨pods, hlist, hmem, hname⟩ :=
        getDebugTargetPodFromSpec_ok env o1.Squash pod effs2 heq
      exact ⟨⟨rfl, rfl, rfl, rfl, rfl, rfl, rfl⟩,
        pods, pod, hlist, hmem, rfl, hname.symm⟩

theorem getMissingContainerStep_ok (env : Env) (o2 o3 : Options) (effs : List Eff)
    (h : getMissingContainerStep env o2 = (.ok o3, effs)) :
    (o3.secureMode = o2.secureMode ∧ o3.Squash.Namespace = o2.Squash.Namespace
      ∧ o3.Squash.Pod = o2.Squash.Pod ∧ o3.Squash.Debugger = o2.Squash.Debugger
      ∧ o3.Squash.LocalPort = o2.Squash.LocalPort ∧ o3.Squash.Machine = o2.Squash.Machine
      ∧ o3.DebugTarget.Pod = o2.DebugTarget.Pod)
    ∧ ((∀ pod c, o2.DebugTarget.Pod = some pod → c ∈ pod.Containers → c.Name ≠ "") →
        o3.Squash.Container ≠ "") := by
  unfold getMissingContainerStep at h
  split at h
  · rename_i hcond
    split at h
    · simp at h
    · rename_i o3b effs2 heq
      simp only [Prod.mk.injEq, Except.ok.injEq] at h
      obtain ⟨ho, -⟩ := h
      subst ho
      obtain ⟨pod, c, hdt, hmemc, hcn, hns, hpd, hdb, hlp, hm, hdtp, hsm⟩ :=
        chooseContainer_ok env o2 o3b effs2 heq
      refine ⟨⟨hsm, hns, hpd, hdb, hlp, hm, hdtp⟩, ?_⟩
      intro hall
      rw [hcn]
      exact hall pod c hdt hmemc
  · rename_i hcond
    split at h
    · simp at h
    · rename_i o3b heq
      simp only [Prod.mk.injEq, Except.ok.injEq] at h
      obtain ⟨ho, -⟩ := h
      subst ho
      obtain ⟨hsq, hdtp, hsm⟩ := getDebugTargetContainerFromSpec_ok o2 o3b heq
      refine ⟨⟨hsm, by rw [hsq], by rw [hsq], by rw [hsq], by rw [hsq], by rw [hsq], hdtp⟩, ?_⟩
      intro _
      rw [hsq]
      simpa using hcond

theorem ensureLocalPort_ok (env : Env) (port p : Int) (effs : List Eff)
    (h : ensureLocalPort env port = (.ok p, effs))
    (hfp : ∀ q, env.findAnyFreePortResp = .ok q → q ≠ 0) : p ≠ 0 := by
  unfold ensureLocalPort at h
  split at h
  · split at h
    · rename_i q heq
      simp only [Prod.mk.injEq, Except.ok.injEq] at h
      obtain ⟨hq, -⟩ := h
      subst hq
      exact hfp _ heq
    · simp at h
  · rename_i hcond
    split at h
    · simp only [Prod.mk.injEq, Except.ok.injEq] at h
      obtain ⟨hq, -⟩ := h
      subst hq
      simpa using hcond
    · simp at h

theorem GetMissing_ok (env : Env) (o o3 : Options) (effs : List Eff)
    (h : GetMissing env o = (.ok o3, effs)) :
    (o3.secureMode = o.secureMode ∧ o3.Squash.Debugger = o.Squash.Debugger
      ∧ o3.Squash.LocalPort = o.Squash.LocalPort ∧ o3.Squash.Machine = o.Squash.Machine
      ∧ ∃ pod, o3.DebugTarget.Pod = some pod)
    ∧ ((∀ nsl x, env.nsList = .ok nsl → x ∈ nsl → x ≠ "") → env.nsChoice ≠ "" →
       (∀ ns pods p, env.podList ns = .ok pods → p ∈ pods → p.Name ≠ "") →
       (∀ ns pods p c, env.podList ns = .ok pods → p ∈ pods → c ∈ p.Containers → c.Name ≠ "") →
        o3.Squash.Namespace ≠ "" ∧ o3.Squash.Pod ≠ "" ∧ o3.Squash.Container ≠ "") := by
  unfold GetMissing at h
  split at h
  · simp at h
  · rename_i o1 effs1 heq1
    split at h
    · simp at h
    · rename_i o2 effs2 heq2
      split at h
      · simp at h
      · rename_i o3b effs3 heq3
        simp only [Prod.mk.injEq, Except.ok.injEq] at h
        obtain ⟨ho, -⟩ := h
        subst ho
        obtain ⟨p1, himp1⟩ := getMissingNamespaceStep_ok env o o1 effs1 heq1
        obtain ⟨p2, pods, pod, hlist, hmem, hdt, hpname⟩ :=
          getMissingPodStep_ok env o1 o2 effs2 heq2
        obtain ⟨p3, himp3⟩ := getMissingContainerStep_ok env o2 o3b effs3 heq3
        constructor
        · refine ⟨?_, ?_, ?_, ?_, ?_⟩
          · exact (p3.1.trans p2.1).trans p1.1
          · exact (p3.2.2.2.1.trans p2.2.2.2.1).trans p1.2.2.2.2.1
          · exact (p3.2.2.2.2.1.trans p2.2.2.2.2.1).trans p1.2.2.2.2.2.1
          · exact (p3.2.2.2.2.2.1.trans p2.2.2.2.2.2.1).trans p1.2.2.2.2.2.2
          · exact ⟨pod, p3.2.2.2.2.2.2.trans hdt⟩
        · intro hns hch hpn hcn
          refine ⟨?_, ?_, ?_⟩
          · rw [p3.2.1, p2.2.1]
            exact himp1 hns hch
          · rw [p3.2.2.1, hpname]
            exact hpn _ _ _ hlist hmem
          · refine himp3 ?_
            intro pod0 c hsome hmemc
            have hpod0 : pod0 = pod := by
              rw [hdt] at hsome
              exact (Option.some.injEq _ _ ▸ hsome).symm
            subst hpod0
            exact hcn _ _ _ _ hlist hmem hmemc

theorem resolveConfig_ok (env : Env) (o o4 : Options) (effs : List Eff)
    (h : resolveConfig env o = (.ok o4, effs)) :
    (o4.secureMode = o.secureMode ∧ o4.Squash.Machine = o.Squash.Machine
      ∧ ∃ pod, o4.DebugTarget.Pod = some pod)
    ∧ (env.debuggerChoice ≠ "" →
       (∀ nsl x, env.nsList = .ok nsl → x ∈ nsl → x ≠ "") → env.nsChoice ≠ "" →
       (∀ ns pods p, env.podList ns = .ok pods → p ∈ pods → p.Name ≠ "") →
       (∀ ns pods p c, env.podList ns = .ok pods → p ∈ pods → c ∈ p.Containers → c.Name ≠ "") →
       (∀ q, env.findAnyFreePortResp = .ok q → q ≠ 0) →
        o4.Squash.Namespace ≠ "" ∧ o4.Squash.Pod ≠ "" ∧ o4.Squash.Container ≠ ""
          ∧ o4.Squash.Debugger ≠ "" ∧ o4.Squash.LocalPort ≠ 0) := by
  unfold resolveConfig at h
  split at h
  · simp at h
  · rename_i o1 effs1 heq1
    split at h
    · simp at h
    · rename_i o2 effs2 heq2
      split at h
      · simp at h
      · rename_i p effs3 heq3
        simp only [Prod.mk.injEq, Except.ok.injEq] at h
        obtain ⟨ho, -⟩ := h
        subst ho
        obtain ⟨hsm1, -, -, -, -, -, hm1, hdbg1⟩ :=
          chooseDebugger_ok env o o1 effs1 heq1
        obtain ⟨⟨hsm2, hdbg2, hlp2, hm2, pod, hpod⟩, himp2⟩ :=
          GetMissing_ok env o1 o2 effs2 heq2
        constructor
        · exact ⟨hsm2.trans hsm1, hm2.trans hm1, pod, hpod⟩
        · intro hdc hns hch hpn hcn hfp
          obtain ⟨hnsne, hpne, hcne⟩ := himp2 hns hch hpn hcn
          refine ⟨hnsne, hpne, hcne, ?_, ?_⟩
          · show o2.Squash.Debugger ≠ ""
            rw [hdbg2]
            rcases hdbg1 with ⟨heqd, hned⟩ | heqd
            · rw [heqd]
              exact hned
            · rw [heqd]
              exact hdc
          · exact ensureLocalPort_ok env o2.Squash.LocalPort p effs3 heq3 hfp

theorem ensureMinimumSquashConfig_ok (env : Env) (o o5 : Options) (effs : List Eff)
    (h : ensureMinimumSquashConfig env o = (.ok o5, effs)) :
    ∃ effs0, resolveConfig env o = (.ok o5, effs0)
      ∧ (effs = effs0 ∨ ∃ m, effs = effs0 ++ [Eff.promptConfirm m]) := by
  unfold ensureMinimumSquashConfig at h
  split at h
  · simp at h
  · rename_i o3 effs0 heq
    split at h
    · simp only [Prod.mk.injEq, Except.ok.injEq] at h
      obtain ⟨ho, he⟩ := h
      subst ho
      subst he
      exact ⟨effs0, heq, Or.inl rfl⟩
    · split at h
      · simp at h
      · rename_i pod hdt
        split at h
        · simp only [Prod.mk.injEq, Except.ok.injEq] at h
          obtain ⟨ho, he⟩ := h
          subst ho
          subst he
          exact ⟨effs0, heq, Or.inr ⟨_, rfl⟩⟩
        · simp at h

theorem ensureMinimumSquashConfig_nonAttach (env : Env) (o : Options) :
    ((ensureMinimumSquashConfig env o).2).all nonAttachEff = true := by
  unfold ensureMinimumSquashConfig
  split
  · rename_i heq
    have h1 := resolveConfig_benign env o
    rw [heq] at h1
    exact all_nonAttach_of_benign h1
  · rename_i o3 effs0 heq
    have h1 := resolveConfig_benign env o
    rw [heq] at h1
    split
    · exact all_nonAttach_of_benign h1
    · split
      · exact all_nonAttach_of_benign h1
      · split <;> exact all_append_pred (all_nonAttach_of_benign h1) rfl

/-- C10: on the direct (non-secure) path the orchestrator delegates to the
container-start collaborator with the fully resolved options and target,
propagates its result unchanged, and never submits an AttachmentIntent. -/
theorem c10_direct_path (env : Env) (o o1 : Options) (cfgEffs : List Eff)
    (hsec : o.secureMode = false)
    (hcfg : ensureMinimumSquashConfig env o = (.ok o1, cfgEffs)) :
    runBaseCommand env o =
      (env.startDebugContainerResp o1.Squash o1.DebugTarget,
        cfgEffs ++ [Eff.startDebug o1.Squash o1.DebugTarget])
    ∧ ∀ e ∈ (runBaseCommand env o).2, e.isAttach = false := by
  have hsec1 : o1.secureMode = false := by
    obtain ⟨effs0, hres, -⟩ := ensureMinimumSquashConfig_ok env o o1 cfgEffs hcfg
    have hp := (resolveConfig_ok env o o1 effs0 hres).1.1
    rw [hp, hsec]
  have hrun : runBaseCommand env o =
      (env.startDebugContainerResp o1.Squash o1.DebugTarget,
        cfgEffs ++ [Eff.startDebug o1.Squash o1.DebugTarget]) := by
    unfold runBaseCommand
    rw [hcfg]
    simp [hsec1]
  refine ⟨hrun, ?_⟩
  rw [hrun]
  intro e he
  rw [List.mem_append] at he
  rcases he with he | he
  · have hall := ensureMinimumSquashConfig_nonAttach env o
    rw [hcfg] at hall
    rw [List.all_eq_true] at hall
    have hne := hall e he
    unfold nonAttachEff at hne
    rw [Bool.and_eq_true, Bool.not_eq_true'] at hne
    exact hne.1
  · rw [List.mem_singleton] at he
    subst he
    rfl

theorem c10_witness :
    runBaseCommand envBase oC10 =
      (.ok (), [Eff.listPods "ns1", Eff.checkPortFree 8080,
        Eff.startDebug o1W.Squash o1W.DebugTarget]) :=
  (c10_direct_path envBase oC10 o1W [Eff.listPods "ns1", Eff.checkPortFree 8080]
    rfl (by rfl)).1

/-- C6: whenever configuration resolution succeeds, the namespace, pod,
container and debugger fields of the merged options are non-empty and the
local port is non-zero, given that the cluster listings return non-empty
names, the survey selections return non-empty values and the free-port
allocator returns a non-zero port. -/
theorem c6_resolved_invariant (env : Env) (o o5 : Options) (effs : List Eff)
    (hdc : env.debuggerChoice ≠ "")
    (hns : ∀ nsl x, env.nsList = .ok nsl → x ∈ nsl → x ≠ "")
    (hch : env.nsChoice ≠ "")
    (hpn : ∀ ns pods p, env.podList ns = .ok pods → p ∈ pods → p.Name ≠ "")
    (hcn : ∀ ns pods p c, env.podList ns = .ok pods → p ∈ pods →
      c ∈ p.Containers → c.Name ≠ "")
    (hfp : ∀ q, env.findAnyFreePortResp = .ok q → q ≠ 0)
    (h : ensureMinimumSquashConfig env o = (.ok o5, effs)) :
    o5.Squash.Namespace ≠ "" ∧ o5.Squash.Pod ≠ "" ∧ o5.Squash.Container ≠ ""
      ∧ o5.Squash.Debugger ≠ "" ∧ o5.Squash.LocalPort ≠ 0 := by
  obtain ⟨effs0, hres, -⟩ := ensureMinimumSquashConfig_ok env o o5 effs h
  exact (resolveConfig_ok env o o5 effs0 hres).2 hdc hns hch hpn hcn hfp

theorem c6_witness :
    o5C6.Squash.Namespace ≠ "" ∧ o5C6.Squash.Pod ≠ "" ∧ o5C6.Squash.Container ≠ ""
      ∧ o5C6.Squash.Debugger ≠ "" ∧ o5C6.Squash.LocalPort ≠ 0 :=
  c6_resolved_invariant envBase oC6 o5C6
    [Eff.promptSelect "Select a debugger" ["dlv", "gdb"], Eff.listNamespaces,
     Eff.listPods "ns1", Eff.findFreePort,
     Eff.promptConfirm "Going to attach dlv to pod p1. continue?"]
    (by decide)
    (by intro nsl x h hx
        injection h with h2
        subst h2
        simp at hx
        subst hx
        decide)
    (by decide)
    (by intro ns pods p h hp
        injection h with h2
        subst h2
        simp at hp
        subst hp
        decide)
    (by intro ns pods p c h hp hc
        injection h with h2
        subst h2
        simp at hp
        subst hp
        simp at hc
        subst hc
        decide)
    (by intro q h
        injection h with h2
        subst h2
        decide)
    (by rfl)

theorem benign_noConfirm {e : Eff} (h : benignEff e = true) :
    (!e.isPromptConfirm) = true := by
  unfold benignEff at h
  simp only [Bool.and_eq_true] at h
  simpa using h.2

theorem all_noConfirm_of_benign {l : List Eff} (h : l.all benignEff = true) :
    l.all (fun e => !e.isPromptConfirm) = true := by
  rw [List.all_eq_true] at h ⊢
  intro e he
  exact benign_noConfirm (h e he)

theorem ensureMinimumSquashConfig_machine_benign (env : Env) (o : Options)
    (hm : o.Squash.Machine = true) :
    ((ensureMinimumSquashConfig env o).2).all benignEff = true := by
  unfold ensureMinimumSquashConfig
  split
  · rename_i heq
    have h1 := resolveConfig_benign env o
    rw [heq] at h1
    exact h1
  · rename_i o3 effs0 heq
    have h1 := resolveConfig_benign env o
    rw [heq] at h1
    have hm3 : o3.Squash.Machine = true := by
      rw [(resolveConfig_ok env o o3 effs0 heq).1.2.1]
      exact hm
    simp only [hm3, if_true]
    exact h1

theorem runBaseCommandWithRbac_noConfirm (env : Env) (top : Options) :
    ((runBaseCommandWithRbac env top).2).all (fun e => !e.isPromptConfirm) = true := by
  unfold runBaseCommandWithRbac
  split
  · rename_i e effs0 heq
    have h1 := ensureSquashIsInCluster_benign env
    rw [heq] at h1
    exact all_noConfirm_of_benign h1
  · rename_i u effs0 heq
    have h1 := ensureSquashIsInCluster_benign env
    rw [heq] at h1
    have h1c := all_noConfirm_of_benign h1
    split
    · exact h1c
    · split
      · exact all_append_pred h1c rfl
      · rename_i initialPods heq2
        split
        · rename_i dbgePod dbgeContainer
          split
          · rename_i e2 effs2 heq3
            have he2 := getCreatedPod_effs env top.Squash initialPods
            rw [heq3] at he2
            have he2b : effs2 = [Eff.listSquashPods top.Squash.Namespace] := he2
            exact all_append_pred (all_append_pred h1c rfl) (by rw [he2b]; rfl)
          · rename_i createdPod effs2 heq3
            have he2 := getCreatedPod_effs env top.Squash initialPods
            rw [heq3] at he2
            have he2b : effs2 = [Eff.listSquashPods top.Squash.Namespace] := he2
            exact all_append_pred
              (all_append_pred (all_append_pred h1c rfl) (by rw [he2b]; rfl)) rfl
        · exact all_append_pred h1c rfl

/-- C8: when machine mode is off, after resolution and before any
attachment action the user is asked for confirmation naming the chosen
debugger and target pod; declining aborts the whole operation with the
distinct user-aborted error and no attachment action occurs; when machine
mode is on no confirmation prompt is ever issued. -/
theorem c8_confirmation_gate (env : Env) (o : Options) :
    (∀ (o2 : Options) (effs : List Eff) (tp : Pod), o.Squash.Machine = false →
        resolveConfig env o = (.ok o2, effs) → o2.DebugTarget.Pod = some tp →
        env.confirmAnswer = false →
        runBaseCommand env o =
          (.error "user aborted",
            effs ++ [Eff.promptConfirm ("Going to attach " ++ o2.Squash.Debugger
              ++ " to pod " ++ tp.Name ++ ". continue?")]))
    ∧ (∀ (o2 : Options) (effs : List Eff) (tp : Pod), o.Squash.Machine = false →
        resolveConfig env o = (.ok o2, effs) → o2.DebugTarget.Pod = some tp →
        (∃ rest, (runBaseCommand env o).2 =
            effs ++ [Eff.promptConfirm ("Going to attach " ++ o2.Squash.Debugger
              ++ " to pod " ++ tp.Name ++ ". continue?")] ++ rest)
          ∧ ∀ e ∈ effs, e.isAttach = false ∧ e.isStartDebug = false
              ∧ e.isPromptConfirm = false)
    ∧ (o.Squash.Machine = true →
        ∀ e ∈ (runBaseCommand env o).2, e.isPromptConfirm = false) := by
  refine ⟨?_, ?_, ?_⟩
  · intro o2 effs tp hm hres hdt hconf
    have hm2 : o2.Squash.Machine = false := by
      rw [(resolveConfig_ok env o o2 effs hres).1.2.1]
      exact hm
    have hgate : ensureMinimumSquashConfig env o =
        (.error "user aborted",
          effs ++ [Eff.promptConfirm ("Going to attach " ++ o2.Squash.Debugger
            ++ " to pod " ++ tp.Name ++ ". continue?")]) := by
      unfold ensureMinimumSquashConfig
      rw [hres]
      simp [hm2, hdt, hconf]
    unfold runBaseCommand
    rw [hgate]
  · intro o2 effs tp hm hres hdt
    have hm2 : o2.Squash.Machine = false := by
      rw [(resolveConfig_ok env o o2 effs hres).1.2.1]
      exact hm
    have hbenign := resolveConfig_benign env o
    rw [hres] at hbenign
    rw [List.all_eq_true] at hbenign
    have heffs : ∀ e ∈ effs, e.isAttach = false ∧ e.isStartDebug = false
        ∧ e.isPromptConfirm = false := by
      intro e he
      have hb := hbenign e he
      unfold benignEff at hb
      simp only [Bool.and_eq_true, Bool.not_eq_true'] at hb
      exact ⟨hb.1.1, hb.1.2, hb.2⟩
    refine ⟨?_, heffs⟩
    cases hconf : env.confirmAnswer with
    | false =>
      have hgate : ensureMinimumSquashConfig env o =
          (.error "user aborted",
            effs ++ [Eff.promptConfirm ("Going to attach " ++ o2.Squash.Debugger
              ++ " to pod " ++ tp.Name ++ ". continue?")]) := by
        unfold ensureMinimumSquashConfig
        rw [hres]
        simp [hm2, hdt, hconf]
      refine ⟨[], ?_⟩
      unfold runBaseCommand
      rw [hgate]
      simp
    | true =>
      have hgate : ensureMinimumSquashConfig env o =
          (.ok o2,
            effs ++ [Eff.promptConfirm ("Going to attach " ++ o2.Squash.Debugger
              ++ " to pod " ++ tp.Name ++ ". continue?")]) := by
        unfold ensureMinimumSquashConfig
        rw [hres]
        simp [hm2, hdt, hconf]
      unfold runBaseCommand
      rw [hgate]
      cases hs : o2.secureMode with
      | true =>
        rcases hrb : runBaseCommandWithRbac env o2 with ⟨r, effs2⟩
        refine ⟨effs2, ?_⟩
        simp [hs, hrb]
      | false =>
        refine ⟨[Eff.startDebug o2.Squash o2.DebugTarget], ?_⟩
        simp [hs]
  · intro hm e he
    unfold runBaseCommand at he
    split at he
    · rename_i e0 effs heq
      have hb := ensureMinimumSquashConfig_machine_benign env o hm
      rw [heq] at hb
      rw [List.all_eq_true] at hb
      have hx := benign_noConfirm (hb e he)
      simpa using hx
    · rename_i o1 effs heq
      have hb := ensureMinimumSquashConfig_machine_benign env o hm
      rw [heq] at hb
      rw [List.all_eq_true] at hb
      split at he
      · rcases hrb : runBaseCommandWithRbac env o1 with ⟨r, effs2⟩
        rw [hrb] at he
        rw [List.mem_append] at he
        rcases he with he | he
        · have hx := benign_noConfirm (hb e he)
          simpa using hx
        · have hr := runBaseCommandWithRbac_noConfirm env o1
          rw [hrb] at hr
          rw [List.all_eq_true] at hr
          have hx := hr e he
          simpa using hx
      · rw [List.mem_append] at he
        rcases he with he | he
        · have hx := benign_noConfirm (hb e he)
          simpa using hx
        · rw [List.mem_singleton] at he
          subst he
          rfl

theorem c8_witness :
    runBaseCommand envC8 oC8 =
      (.error "user aborted",
        [Eff.listPods "ns1", Eff.checkPortFree 8080,
         Eff.promptConfirm "Going to attach dlv to pod p1. continue?"]) :=
  (c8_confirmation_gate envC8 oC8).1 o2C8 [Eff.listPods "ns1", Eff.checkPortFree 8080]
    ⟨"p1", [⟨"app", "img1"⟩]⟩ rfl (by rfl) rfl rfl

/-- C5: in every secure-mode attach the before snapshot (label-filtered
listing) strictly precedes the AttachmentIntent submission, the fixed
grace period of three seconds follows the submission, and the current
snapshot with the same namespace and filter is taken only after it, after
which the differ runs. -/
theorem c5_snapshot_ordering (env : Env) (o o1 : Options) (cfgEffs : List Eff)
    (hsec : o.secureMode = true)
    (hcfg : ensureMinimumSquashConfig env o = (.ok o1, cfgEffs))
    (nsl deps : List String)
    (h1 : env.getNamespacesResp = .ok nsl)
    (h2 : env.listSquashDeploymentsResp nsl = .ok deps)
    (h3 : deps ≠ [])
    (h4 : env.newUserControllerResp = .ok ())
    (initialPods : List Pod)
    (h5 : env.squashPodList1 o1.Squash.Namespace = .ok initialPods)
    (tp : Pod) (tc : Container)
    (h6 : o1.DebugTarget.Pod = some tp) (h7 : o1.DebugTarget.Container = some tc) :
    ∃ rest, (runBaseCommand env o).2 =
      cfgEffs ++ [Eff.getNamespaces, Eff.listSquashDeployments,
        Eff.listSquashPods o1.Squash.Namespace,
        Eff.attach (genDebugAttachmentName o1.Squash.Pod o1.Squash.Container)
          o1.Squash.Namespace tc.Image tp.Name o1.Squash.Container o1.Squash.Debugger,
        Eff.sleepFor 3,
        Eff.listSquashPods o1.Squash.Namespace] ++ rest := by
  have hsec1 : o1.secureMode = true := by
    obtain ⟨effs0, hres, -⟩ := ensureMinimumSquashConfig_ok env o o1 cfgEffs hcfg
    rw [(resolveConfig_ok env o o1 effs0 hres).1.1]
    exact hsec
  have hcheck : ensureSquashIsInCluster env =
      (.ok (), [Eff.getNamespaces, Eff.listSquashDeployments]) := by
    unfold ensureSquashIsInCluster
    rw [h1]
    cases deps with
    | nil => exact absurd rfl h3
    | cons d ds => simp [h2]
  have hrbac : ∃ rest2, (runBaseCommandWithRbac env o1).2 =
      [Eff.getNamespaces, Eff.listSquashDeployments,
        Eff.listSquashPods o1.Squash.Namespace,
        Eff.attach (genDebugAttachmentName o1.Squash.Pod o1.Squash.Container)
          o1.Squash.Namespace tc.Image tp.Name o1.Squash.Container o1.Squash.Debugger,
        Eff.sleepFor 3,
        Eff.listSquashPods o1.Squash.Namespace] ++ rest2 := by
    rcases hg : getCreatedPod env o1.Squash initialPods with ⟨r, effs2⟩
    have he2 : effs2 = [Eff.listSquashPods o1.Squash.Namespace] := by
      have hx := getCreatedPod_effs env o1.Squash initialPods
      rw [hg] at hx
      exact hx
    subst he2
    cases r with
    | error e =>
      refine ⟨[], ?_⟩
      simp [runBaseCommandWithRbac, hcheck, h4, h5, h6, h7, hg]
    | ok createdPod =>
      refine ⟨[Eff.reportOrConnect createdPod.Name], ?_⟩
      simp [runBaseCommandWithRbac, hcheck, h4, h5, h6, h7, hg]
  obtain ⟨rest2, hr⟩ := hrbac
  rcases hrb : runBaseCommandWithRbac env o1 with ⟨r, effs2⟩
  rw [hrb] at hr
  refine ⟨rest2, ?_⟩
  unfold runBaseCommand
  rw [hcfg]
  simp [hsec1, hrb, hr, List.append_assoc]

theorem c5_witness :
    ∃ rest, (runBaseCommand envBase oC5).2 =
      [Eff.listPods "ns1", Eff.checkPortFree 8080] ++
      [Eff.getNamespaces, Eff.listSquashDeployments, Eff.listSquashPods "ns1",
       Eff.attach "p1-app" "ns1" "img1" "p1" "app" "dlv", Eff.sleepFor 3,
       Eff.listSquashPods "ns1"] ++ rest :=
  c5_snapshot_ordering envBase oC5 o1C5 [Eff.listPods "ns1", Eff.checkPortFree 8080]
    rfl (by rfl) ["ns1"] ["squash-dep"] rfl rfl (by decide) rfl [] rfl
    ⟨"p1", [⟨"app", "img1"⟩]⟩ ⟨"app", "img1"⟩ rfl rfl

theorem insertPod_names (m : List Pod) (p : Pod) :
    (insertPod m p).map Pod.Name =
      if m.any (fun q => q.Name == p.Name) then m.map Pod.Name
      else m.map Pod.Name ++ [p.Name] := by
  unfold insertPod
  split
  · rename_i hany
    rw [List.map_map]
    apply List.map_congr_left
    intro q hq
    simp only [Function.comp_apply]
    by_cases hqp : q.Name = p.Name
    · have hb : (q.Name == p.Name) = true := (beq_iff_eq).mpr hqp
      rw [if_pos hb, hqp]
    · have hb : (q.Name == p.Name) = false := by simpa using hqp
      simp [hb]
  · simp

theorem mem_insertPod_names (n : String) (m : List Pod) (p : Pod) :
    n ∈ (insertPod m p).map Pod.Name ↔ n ∈ m.map Pod.Name ∨ n = p.Name := by
  rw [insertPod_names]
  split
  · rename_i hany
    constructor
    · exact Or.inl
    · intro h
      rcases h with h | h
      · exact h
      · subst h
        rw [List.any_eq_true] at hany
        obtain ⟨q, hq, hqp⟩ := hany
        have hqe : q.Name = p.Name := (beq_iff_eq).mp hqp
        rw [← hqe]
        exact List.mem_map_of_mem Pod.Name hq
  · simp [List.mem_append]

theorem nodup_insertPod_names (m : List Pod) (p : Pod)
    (h : (m.map Pod.Name).Nodup) : ((insertPod m p).map Pod.Name).Nodup := by
  rw [insertPod_names]
  split
  · exact h
  · rename_i hany
    rw [List.nodup_append]
    refine ⟨h, List.nodup_singleton _, ?_⟩
    intro a ha hb
    rw [List.mem_singleton] at hb
    subst hb
    rw [List.mem_map] at ha
    obtain ⟨q, hq, hqn⟩ := ha
    exact hany (List.any_eq_true.mpr ⟨q, hq, (beq_iff_eq).mpr hqn⟩)

theorem foldl_insertPod_nodup (pods : List Pod) (acc : List Pod)
    (h : (acc.map Pod.Name).Nodup) :
    ((pods.foldl insertPod acc).map Pod.Name).Nodup := by
  induction pods generalizing acc with
  | nil => simpa using h
  | cons p ps ih => exact ih (insertPod acc p) (nodup_insertPod_names acc p h)

theorem buildLookup_names_nodup (pods : List Pod) :
    ((buildLookup pods).map Pod.Name).Nodup :=
  foldl_insertPod_nodup pods [] (by simp)

theorem mem_foldl_insertPod_names (n : String) (pods : List Pod) (acc : List Pod) :
    n ∈ ((pods.foldl insertPod acc).map Pod.Name) ↔
      n ∈ acc.map Pod.Name ∨ ∃ p ∈ pods, p.Name = n := by
  induction pods generalizing acc with
  | nil => simp
  | cons p ps ih =>
    rw [List.foldl_cons, ih, mem_insertPod_names]
    constructor
    · rintro ((h | h) | ⟨q, hq, hqn⟩)
      · exact Or.inl h
      · exact Or.inr ⟨p, List.mem_cons_self p ps, h.symm⟩
      · exact Or.inr ⟨q, List.mem_cons_of_mem p hq, hqn⟩
    · rintro (h | ⟨q, hq, hqn⟩)
      · exact Or.inl (Or.inl h)
      · rw [List.mem_cons] at hq
        rcases hq with rfl | hq
        · exact Or.inl (Or.inr hqn.symm)
        · exact Or.inr ⟨q, hq, hqn⟩

theorem mem_buildLookup_names (n : String) (pods : List Pod) :
    n ∈ (buildLookup pods).map Pod.Name ↔ ∃ p ∈ pods, p.Name = n := by
  unfold buildLookup
  rw [mem_foldl_insertPod_names]
  simp

theorem mem_insertPod_sub {q : Pod} {m : List Pod} {p : Pod}
    (h : q ∈ insertPod m p) : q ∈ m ∨ q = p := by
  unfold insertPod at h
  split at h
  · rw [List.mem_map] at h
    obtain ⟨r, hr, hrq⟩ := h
    by_cases hb : (r.Name == p.Name) = true
    · rw [if_pos hb] at hrq
      exact Or.inr hrq.symm
    · rw [if_neg hb] at hrq
      exact Or.inl (hrq ▸ hr)
  · rw [List.mem_append] at h
    rcases h with h | h
    · exact Or.inl h
    · rw [List.mem_singleton] at h
      exact Or.inr h

theorem mem_foldl_insertPod_sub {q : Pod} (pods : List Pod) (acc : List Pod)
    (h : q ∈ pods.foldl insertPod acc) : q ∈ acc ∨ q ∈ pods := by
  induction pods generalizing acc with
  | nil => exact Or.inl (by simpa using h)
  | cons p ps ih =>
    rw [List.foldl_cons] at h
    rcases ih (insertPod acc p) h with h2 | h2
    · rcases mem_insertPod_sub h2 with h3 | h3
      · exact Or.inl h3
      · exact Or.inr (by rw [h3]; exact List.mem_cons_self p ps)
    · exact Or.inr (List.mem_cons_of_mem p h2)

theorem mem_buildLookup_sub {q : Pod} {pods : List Pod}
    (h : q ∈ buildLookup pods) : q ∈ pods := by
  have hx := mem_foldl_insertPod_sub pods [] h
  simpa using hx

theorem mem_removePods {q : Pod} (m initialPods : List Pod) :
    q ∈ removePods m initialPods ↔
      q ∈ m ∧ ∀ p ∈ initialPods, ¬(q.Name = p.Name) := by
  induction initialPods generalizing m with
  | nil => simp [removePods]
  | cons p ps ih =>
    have hstep : removePods m (p :: ps) =
        removePods (m.filter (fun r => !(r.Name == p.Name))) ps := rfl
    rw [hstep, ih, List.mem_filter]
    constructor
    · rintro ⟨⟨hq, hf⟩, hall⟩
      refine ⟨hq, ?_⟩
      intro r hr
      rw [List.mem_cons] at hr
      rcases hr with rfl | hr
      · simpa using hf
      · exact hall r hr
    · rintro ⟨hq, hall⟩
      refine ⟨⟨hq, ?_⟩, ?_⟩
      · have hx := hall p (List.mem_cons_self p ps)
        simpa using hx
      · intro r hr
        exact hall r (List.mem_cons_of_mem p hr)

theorem removePods_sublist (m initialPods : List Pod) :
    List.Sublist (removePods m initialPods) m := by
  induction initialPods generalizing m with
  | nil => exact List.Sublist.refl m
  | cons p ps ih =>
    have hstep : removePods m (p :: ps) =
        removePods (m.filter (fun r => !(r.Name == p.Name))) ps := rfl
    rw [hstep]
    exact (ih _).trans (List.filter_sublist m)

/-- C1: getCreatedPod computes exactly the set of pod names present in the
current snapshot and absent from the before snapshot; it succeeds and
returns the new pod exactly when that set has size one, and for size zero
or at least two it fails with an error carrying the actual count, never
returning an arbitrary pod. -/
theorem c1_getCreatedPod (env : Env) (sq : Squash) (initialPods currentPods : List Pod)
    (hcur : env.squashPodList2 sq.Namespace = .ok currentPods) :
    (((removePods (buildLookup currentPods) initialPods).map Pod.Name).Nodup
      ∧ ∀ n, n ∈ (removePods (buildLookup currentPods) initialPods).map Pod.Name ↔
          ((∃ p ∈ currentPods, p.Name = n) ∧ ∀ q ∈ initialPods, q.Name ≠ n))
    ∧ (∀ p, (getCreatedPod env sq initialPods).1 = .ok p →
        removePods (buildLookup currentPods) initialPods = [p]
        ∧ p ∈ currentPods ∧ ∀ q ∈ initialPods, q.Name ≠ p.Name)
    ∧ ((removePods (buildLookup currentPods) initialPods).length = 1 →
        ∃ p, (getCreatedPod env sq initialPods).1 = .ok p)
    ∧ ((removePods (buildLookup currentPods) initialPods).length ≠ 1 →
        (getCreatedPod env sq initialPods).1 =
          .error ("Expected to find one newly created squash debug pod, found "
            ++ toString (removePods (buildLookup currentPods) initialPods).length)) := by
  refine ⟨⟨?_, ?_⟩, ?_, ?_, ?_⟩
  · exact (buildLookup_names_nodup currentPods).sublist
      ((removePods_sublist (buildLookup currentPods) initialPods).map Pod.Name)
  · intro n
    constructor
    · intro hn
      rw [List.mem_map] at hn
      obtain ⟨q, hq, hqn⟩ := hn
      rw [mem_removePods] at hq
      obtain ⟨hq1, hq2⟩ := hq
      refine ⟨⟨q, mem_buildLookup_sub hq1, hqn⟩, ?_⟩
      intro r hr
      rw [← hqn]
      exact fun hh => hq2 r hr hh.symm
    · rintro ⟨⟨p, hp, hpn⟩, hall⟩
      have hbl : n ∈ (buildLookup currentPods).map Pod.Name :=
        (mem_buildLookup_names n currentPods).mpr ⟨p, hp, hpn⟩
      rw [List.mem_map] at hbl ⊢
      obtain ⟨q, hq, hqn⟩ := hbl
      refine ⟨q, ?_, hqn⟩
      rw [mem_removePods]
      refine ⟨hq, ?_⟩
      intro r hr heq
      exact hall r hr (by rw [← heq]; exact hqn)
  · intro p hok
    simp only [getCreatedPod, hcur] at hok
    split at hok
    · rename_i p2 heqr
      simp only [Except.ok.injEq] at hok
      subst hok
      have hmem : p2 ∈ removePods (buildLookup currentPods) initialPods := by
        rw [heqr]
        exact List.mem_singleton_self p2
      rw [mem_removePods] at hmem
      obtain ⟨hm1, hm2⟩ := hmem
      refine ⟨heqr, mem_buildLookup_sub hm1, ?_⟩
      intro q hq hh
      exact hm2 q hq hh.symm
    · simp at hok
  · intro hlen
    obtain ⟨p, hp⟩ := List.length_eq_one.mp hlen
    exact ⟨p, by simp [getCreatedPod, hcur, hp]⟩
  · intro hlen
    have hne : ∀ q, removePods (buildLookup currentPods) initialPods ≠ [q] := by
      intro q hq
      apply hlen
      rw [hq]
      rfl
    simp only [getCreatedPod, hcur]

theorem c1_witness :
    ∃ p, (getCreatedPod envC1 { Namespace := "ns1" } [⟨"a", []⟩]).1 = .ok p :=
  (c1_getCreatedPod envC1 { Namespace := "ns1" } [⟨"a", []⟩]
    [⟨"a", []⟩, ⟨"c", []⟩] rfl).2.2.1 (by decide)

end SquashCtl
